import Mathlib

/-
  Verification of the Hytale save-format decoder / chunk renderer.

  The Python sources (render_chunk.py, getChunkBlocks.py) are shallowly
  embedded below.  Byte buffers are `List Nat` whose elements are byte
  values in [0,256); block / fluid names are kept as raw byte lists
  (UTF-8 decoding is injective on the byte strings compared here, so
  string comparison in the source is byte-list comparison in the model).
  Sequential `io.BytesIO` reads become front-consuming readers returning
  `Option (value × rest)`; a `none` models a raised `struct.error` /
  `IndexError`.  `bytes.read(n)` never raises, so it is modelled by the
  total `readUpTo`.
-/

/-- One byte, as a natural number in `[0, 256)`. -/
abbrev Byte := Nat

/-- `struct.unpack` of one unsigned byte (`>B`): fails on an empty stream. -/
def rU8 : List Byte → Option (Nat × List Byte)
  | [] => none
  | b :: r => some (b, r)

/-- `struct.unpack` big-endian unsigned 16-bit (`>H`). -/
def rU16BE : List Byte → Option (Nat × List Byte)
  | a :: b :: r => some (a * 256 + b, r)
  | _ => none

/-- `struct.unpack` big-endian unsigned 32-bit (`>I`). -/
def rU32BE : List Byte → Option (Nat × List Byte)
  | a :: b :: c :: d :: r => some (((a * 256 + b) * 256 + c) * 256 + d, r)
  | _ => none

/-- `struct.unpack` little-endian unsigned 16-bit (`<H`). -/
def rU16LE : List Byte → Option (Nat × List Byte)
  | a :: b :: r => some (a + b * 256, r)
  | _ => none

/-- `struct.unpack` little-endian unsigned 32-bit (`<I`). -/
def rU32LE : List Byte → Option (Nat × List Byte)
  | a :: b :: c :: d :: r => some (a + 256 * (b + 256 * (c + 256 * d)), r)
  | _ => none

/-- `struct.unpack` of one signed byte (`>b`). -/
def rI8 : List Byte → Option (Int × List Byte)
  | [] => none
  | b :: r => some (if b < 128 then (b : Int) else (b : Int) - 256, r)

/-- `struct.unpack` big-endian signed 16-bit (`>h`). -/
def rI16BE : List Byte → Option (Int × List Byte)
  | a :: b :: r =>
    let v := a * 256 + b
    some (if v < 32768 then (v : Int) else (v : Int) - 65536, r)
  | _ => none

/-- Read exactly `n` bytes (fails when fewer are available), as the
`struct`-backed reads of the source do. -/
def readN (n : Nat) (s : List Byte) : Option (List Byte × List Byte) :=
  if n ≤ s.length then some (s.take n, s.drop n) else none

/-- `io.BytesIO.read n`: returns up to `n` bytes, never fails. -/
def readUpTo (n : Nat) (s : List Byte) : List Byte × List Byte :=
  (s.take n, s.drop n)

/-- `io.BytesIO.read n` with a possibly negative (signed) count: a negative
count reads the whole remaining stream, exactly as in Python. -/
def readUpToI (n : Int) (s : List Byte) : List Byte × List Byte :=
  if n < 0 then (s, []) else (s.take n.toNat, s.drop n.toNat)

/-- The byte string of the block name `Empty`. -/
def emptyName : List Byte := [69, 109, 112, 116, 121]

/-- The byte string `Water`. -/
def waterName : List Byte := [87, 97, 116, 101, 114]

/-- The byte string `Lava`. -/
def lavaName : List Byte := [76, 97, 118, 97]

/-- Lookup in a Python `dict` built by repeated `d[k] = v` assignments,
modelled as the association list of the assignments in order: the last
binding of a key wins. -/
def dictGet : List (Nat × List Byte) → Nat → Option (List Byte)
  | [], _ => none
  | (k0, v) :: rest, k =>
    match dictGet rest k with
    | some v1 => some v1
    | none => if k0 = k then some v else none

/-- `d.get(k, dflt)` on a Python dict (last binding wins). -/
def dictGetD (d : List (Nat × List Byte)) (k : Nat) (dflt : List Byte) : List Byte :=
  (dictGet d k).getD dflt

/-- `flat_idx = ((y & 31) << 10) | ((z & 31) << 5) | (x & 31)` —
the Y-major, then Z, then X cell addressing used by every packed
32×32×32 array of the format (render_chunk.py, get_block_at /
get_fluid_at). -/
def cellIndex (x y z : Nat) : Nat :=
  ((y &&& 31) <<< 10) ||| ((z &&& 31) <<< 5) ||| (x &&& 31)

/-- Result of `parse_block_section` (render_chunk.py lines 179-213). -/
structure BlockSection where
  pal : List (Nat × List Byte)
  arr : Option (List Byte)
  ptype : Nat
  deriving Repr, DecidableEq

/-- The shared palette-entry loop of `parse_block_section` and
`parse_fluid_section` (render_chunk.py): each stored entry is
`(internalId, nameLength : u16 BE, name, count : u16 BE)` where
`internalId` is 2 bytes (`>H`) when the encoding byte is 3 (Short) and
1 byte (`>B`) otherwise.  On a truncated entry the palette read so far
is returned together with `none` (the fluid parser catches the
exception and keeps the partial palette; the block parser re-raises). -/
def readPaletteEntriesF (pt : Nat) :
    Nat → List Byte → List (Nat × List Byte) →
    List (Nat × List Byte) × Option (List Byte)
  | 0, s, acc => (acc.reverse, some s)
  | k + 1, s, acc =>
    match (if pt = 3 then rU16BE s else rU8 s) with
    | none => (acc.reverse, none)
    | some (id, s1) =>
      match rU16BE s1 with
      | none => (acc.reverse, none)
      | some (nlen, s2) =>
        match readN nlen s2 with
        | none => (acc.reverse, none)
        | some (nm, s3) =>
          match rU16BE s3 with
          | none => (acc.reverse, none)
          | some (_cnt, s4) => readPaletteEntriesF pt k s4 ((id, nm) :: acc)

/-- `parse_block_section` (render_chunk.py lines 179-213): header is
`migrationCount : u32 BE`, `paletteType : u8`, `paletteSize : u16 BE`;
then `paletteSize` palette entries each carrying an explicit stored id;
then the fixed-size index array selected by `paletteType`
(`read` never fails, so a short array is returned as-is).
`none` models a raised `struct.error`. -/
def parse_block_section (data : List Byte) : Option BlockSection :=
  match rU32BE data with
  | none => none
  | some (_mig, s1) =>
    match rU8 s1 with
    | none => none
    | some (pt, s2) =>
      match rU16BE s2 with
      | none => none
      | some (psz, s3) =>
        match readPaletteEntriesF pt psz s3 [] with
        | (_, none) => none
        | (pal, some s4) =>
          if pt = 0 then some ⟨pal, none, pt⟩
          else if pt = 1 then some ⟨pal, some (s4.take 16384), pt⟩
          else if pt = 2 then some ⟨pal, some (s4.take 32768), pt⟩
          else if pt = 3 then some ⟨pal, some (s4.take 65536), pt⟩
          else some ⟨pal, none, pt⟩

/-- `get_block_at` (render_chunk.py lines 216-238).  `none` models a
raised `IndexError` / `struct.error` on an out-of-range array access;
`some name` is the returned block name. -/
def get_block_at (pal : List (Nat × List Byte)) (arrOpt : Option (List Byte))
    (pt x y z : Nat) : Option (List Byte) :=
  match arrOpt with
  | none => some emptyName
  | some arr =>
    let flat := cellIndex x y z
    if pt = 1 then
      match arr[flat / 2]? with
      | none => none
      | some b =>
        some (dictGetD pal (if flat % 2 = 0 then b &&& 15 else (b >>> 4) &&& 15) emptyName)
    else if pt = 2 then
      match arr[flat]? with
      | none => none
      | some b => some (dictGetD pal b emptyName)
    else if pt = 3 then
      match arr[flat * 2]?, arr[flat * 2 + 1]? with
      | some b0, some b1 => some (dictGetD pal (b0 * 256 + b1) emptyName)
      | _, _ => none
    else some emptyName

/-- The palette-entry loop of `decode_blocks` (getChunkBlocks.py lines
64-72): each entry is `(nameLength : i16 BE, name, count : i16 BE,
trailingByte : i8)` — no id field; the name is appended to a plain
list, so its id is its position. -/
def readGBEntries : Nat → List Byte → List (List Byte) →
    Option (List (List Byte) × List Byte)
  | 0, s, acc => some (acc.reverse, s)
  | k + 1, s, acc =>
    match rI16BE s with
    | none => none
    | some (nlen, s1) =>
      let (nm, s2) := readUpToI nlen s1
      match s2 with
      | _qa :: _qb :: _tb :: s3 => readGBEntries k s3 (nm :: acc)
      | _ => none

/-- `decode_blocks` (getChunkBlocks.py lines 27-74): header `>Ibhb`
(`unknown1 : u32 BE`, `packing : i8`, `paletteLength : i16 BE`,
`unknown2 : i8`), then `paletteLength` palette entries with positional
ids.  The function's observable result is the ordered list of palette
names it builds (entry `i` of the list is the palette entry with id `i`);
`none` models a raised `struct.error`. -/
def decode_blocks (blocks : List Byte) : Option (List (List Byte)) :=
  match rU32BE blocks with
  | none => none
  | some (_u1, s1) =>
    match rI8 s1 with
    | none => none
    | some (_pf, s2) =>
      match rI16BE s2 with
      | none => none
      | some (plen, s3) =>
        match rI8 s3 with
        | none => none
        | some (_u2, s4) =>
          match readGBEntries plen.toNat s4 [] with
          | none => none
          | some (pal, _) => some pal

/-- Result of `parse_fluid_section` (render_chunk.py lines 241-300). -/
structure FluidSection where
  pal : List (Nat × List Byte)
  typeArr : Option (List Byte)
  levelArr : Option (List Byte)
  ptype : Nat
  deriving Repr, DecidableEq

/-- `parse_fluid_section` (render_chunk.py lines 241-300): no leading
migration count; header is `paletteType : u8`, `paletteSize : u16 BE`;
palette entries as in `parse_block_section` but any malformed entry is
caught and degrades to a result with no arrays; then the type array
(sized by `paletteType`) and the always-16384-byte 4-bit level array,
each degrading to `none` arrays when short.  The function is total:
it never raises. -/
def parse_fluid_section (data : List Byte) : FluidSection :=
  if data.length < 3 then ⟨[], none, none, 0⟩
  else
    match rU8 data with
    | none => ⟨[], none, none, 0⟩
    | some (pt, s1) =>
      match rU16BE s1 with
      | none => ⟨[], none, none, 0⟩
      | some (psz, s2) =>
        match readPaletteEntriesF pt psz s2 [] with
        | (pal, none) => ⟨pal, none, none, pt⟩
        | (pal, some s3) =>
          if pt = 0 then ⟨pal, none, none, pt⟩
          else if pt = 1 ∨ pt = 2 ∨ pt = 3 then
            let n := if pt = 1 then 16384 else if pt = 2 then 32768 else 65536
            let ta := s3.take n
            let s4 := s3.drop n
            if ta.length = 0 then ⟨pal, none, none, pt⟩
            else
              let la := s4.take 16384
              if la.length < 16384 then ⟨pal, none, none, pt⟩
              else ⟨pal, some ta, some la, pt⟩
          else ⟨pal, none, none, pt⟩

/-- `get_fluid_at` (render_chunk.py lines 303-336).  Returns
`some (none, 0)` for "no fluid here" (unknown encoding, id not in the
palette, empty name, or the name `Empty`), `some (some name, level)`
for a fluid cell, and `none` for a raised `IndexError`. -/
def get_fluid_at (pal : List (Nat × List Byte)) (ta la : List Byte)
    (pt x y z : Nat) : Option (Option (List Byte) × Nat) :=
  let flat := cellIndex x y z
  let tid? : Option (Option Nat) :=
    if pt = 1 then
      match ta[flat / 2]? with
      | none => none
      | some b => some (some (if flat % 2 = 0 then b &&& 15 else (b >>> 4) &&& 15))
    else if pt = 2 then
      match ta[flat]? with
      | none => none
      | some b => some (some b)
    else if pt = 3 then
      match ta[flat * 2]?, ta[flat * 2 + 1]? with
      | some b0, some b1 => some (some (b0 * 256 + b1))
      | _, _ => none
    else some none
  match tid? with
  | none => none
  | some none => some (none, 0)
  | some (some tid) =>
    match dictGet pal tid with
    | none => some (none, 0)
    | some nm =>
      if nm = [] ∨ nm = emptyName then some (none, 0)
      else
        match la[flat / 2]? with
        | none => none
        | some b =>
          some (some nm, if flat % 2 = 0 then b &&& 15 else (b >>> 4) &&& 15)

/-- The inline 10-bit extraction of `parse_biome_tints`
(render_chunk.py lines 110-122 and 152-164): entry `i` is decoded only
when `byteOffset + 1 < len(data)`; otherwise the entry is skipped and
its grid cell keeps its initial value.  The inner conditional on
`byte2` is kept verbatim from the source (it is subsumed by the outer
guard). -/
def decodeTenBit (data : List Byte) (i : Nat) : Option Nat :=
  let bitOff := i * 10
  let byteOff := bitOff / 8
  let bitIn := bitOff % 8
  if byteOff + 1 < data.length then
    let b1 := data.getD byteOff 0
    let b2 := if byteOff + 1 < data.length then data.getD (byteOff + 1) 0 else 0
    some (((b1 >>> bitIn) ||| (b2 <<< (8 - bitIn))) &&& 0x3FF)
  else none

/-- 32×32 grids (`heightmap[z][x]`, `tint_colors[z][x]`) are modelled as
total functions; Python's list-of-list element assignment becomes the
functional update `gset`. -/
abbrev Grid (α : Type) := Nat → Nat → α

/-- `g[zi][xi] = v`. -/
def gset {α : Type} (g : Grid α) (zi xi : Nat) (v : α) : Grid α :=
  fun z x => if z = zi ∧ x = xi then v else g z x

/-- One iteration of the heightmap loop (render_chunk.py lines 110-132):
`x = i % 32`, `z = i // 32`, with the palette fallback to `0`. -/
def heightStep (packed : List Byte) (pal : List Nat) (g : Grid Nat) (i : Nat) :
    Grid Nat :=
  match decodeTenBit packed i with
  | none => g
  | some v => gset g (i / 32) (i % 32) (if v < pal.length then pal.getD v 0 else 0)

/-- The decoded 32×32 heightmap (initially all `0`). -/
def heightGrid (packed : List Byte) (pal : List Nat) : Grid Nat :=
  (List.range 1024).foldl (heightStep packed pal) (fun _ _ => 0)

/-- An RGB triple of byte values. -/
abbrev RGB := Nat × Nat × Nat

/-- One iteration of the tint loop (render_chunk.py lines 152-174):
`z = i % 32`, `x = i // 32`, with the white `(255,255,255)` fallback. -/
def tintStep (packed : List Byte) (pal : List RGB) (g : Grid (Option RGB)) (i : Nat) :
    Grid (Option RGB) :=
  match decodeTenBit packed i with
  | none => g
  | some v =>
    gset g (i % 32) (i / 32)
      (some (if v < pal.length then pal.getD v (255, 255, 255) else (255, 255, 255)))

/-- The decoded 32×32 tint grid (initially all `None`). -/
def tintGrid (packed : List Byte) (pal : List RGB) : Grid (Option RGB) :=
  (List.range 1024).foldl (tintStep packed pal) (fun _ _ => none)

/-- Read `k` little-endian u16 values (the heightmap palette loop). -/
def readU16LEList : Nat → List Byte → Option (List Nat × List Byte)
  | 0, s => some ([], s)
  | k + 1, s =>
    match rU16LE s with
    | none => none
    | some (v, s1) =>
      match readU16LEList k s1 with
      | none => none
      | some (vs, s2) => some (v :: vs, s2)

/-- Read `k` little-endian u32 values (the tint palette loop). -/
def readU32LEList : Nat → List Byte → Option (List Nat × List Byte)
  | 0, s => some ([], s)
  | k + 1, s =>
    match rU32LE s with
    | none => none
    | some (v, s1) =>
      match readU32LEList k s1 with
      | none => none
      | some (vs, s2) => some (v :: vs, s2)

/-- `0xRRGGBB` unpacking of a tint palette entry (render_chunk.py
lines 140-144). -/
def rgbOfU32 (v : Nat) : RGB := ((v >>> 16) &&& 255, (v >>> 8) &&& 255, v &&& 255)

/-- `parse_biome_tints` (render_chunk.py lines 81-176), starting from the
`BlockChunk.Data` blob: `needsPhysics : u8`, heightmap palette
(`count : u16 LE` then `count` u16 LE heights), packed length `u32 LE`,
packed bytes, then the tint palette (u32 LE `0xRRGGBB` colors) and its
packed bytes.  Returns the two decoded grids. -/
def parse_biome_tints (data : List Byte) :
    Option (Grid Nat × Grid (Option RGB)) :=
  match rU8 data with
  | none => none
  | some (_needsPhysics, s1) =>
    match rU16LE s1 with
    | none => none
    | some (hcount, s2) =>
      match readU16LEList hcount s2 with
      | none => none
      | some (hpal, s3) =>
        match rU32LE s3 with
        | none => none
        | some (hlen, s4) =>
          let (hpacked, s5) := readUpTo hlen s4
          match rU16LE s5 with
          | none => none
          | some (tcount, s6) =>
            match readU32LEList tcount s6 with
            | none => none
            | some (traw, s7) =>
              match rU32LE s7 with
              | none => none
              | some (tlen, s8) =>
                let (tpacked, _) := readUpTo tlen s8
                some (heightGrid hpacked hpal, tintGrid tpacked (traw.map rgbOfU32))

/-- One chunk section of the decoded document: the optional
`Components.Block.Data` and `Components.Fluid.Data` byte blobs (a
missing component and a missing `Data` entry are both `none`). -/
structure SectionD where
  block : Option (List Byte)
  fluid : Option (List Byte)
  deriving Repr, DecidableEq

/-- The decoded chunk document, reduced to its
`Components.ChunkColumn.Sections` list. -/
abbrev ChunkDoc := List SectionD

/-- Outcome of inspecting one cell in the `find_surface_height` inner
loop: an exception, a skipped (non-solid) cell, or a solid block. -/
inductive ScanRes where
  | raise
  | skip
  | solid (nm : List Byte)
  deriving Repr, DecidableEq

/-- One iteration of the local-Y loop of `find_surface_height`
(render_chunk.py lines 399-404): read the cell, skip `Empty` and
`*`-prefixed names. -/
def scanCell (pal : List (Nat × List Byte)) (arr : List Byte) (pt x z y : Nat) :
    ScanRes :=
  match get_block_at pal (some arr) pt x y z with
  | none => .raise
  | some nm =>
    if nm = emptyName ∨ nm.headD 0 = 42 then .skip else .solid nm

/-- The local-Y loop of `find_surface_height` (render_chunk.py lines
399-408) over the given Y list: `some (some (y, name))` is a solid hit,
`some none` means the whole list was skipped, `none` models a raised
exception. -/
def scanYs (pal : List (Nat × List Byte)) (arr : List Byte) (pt x z : Nat) :
    List Nat → Option (Option (Nat × List Byte))
  | [] => some none
  | y :: ys =>
    match scanCell pal arr pt x z y with
    | .raise => none
    | .skip => scanYs pal arr pt x z ys
    | .solid nm => some (some (y, nm))

/-- Outcome of one section of the `find_surface_height` outer loop. -/
inductive FshRes where
  | raise
  | skip
  | found (r : Nat × List Byte × Nat)
  deriving Repr, DecidableEq

/-- The per-section work of `find_surface_height` (render_chunk.py
lines 387-408): index the section list, skip sections without block
data, parse, and scan local Y 31 down to 0. -/
def fshStep (doc : ChunkDoc) (x z s : Nat) : FshRes :=
  match doc[s]? with
  | none => .raise
  | some sec =>
    match sec.block with
    | none => .skip
    | some bd =>
      match parse_block_section bd with
      | none => .raise
      | some bs =>
        match bs.arr with
        | none => .skip
        | some arr =>
          match scanYs bs.pal arr bs.ptype x z ((List.range 32).reverse) with
          | none => .raise
          | some none => .skip
          | some (some (y, nm)) => .found (s * 32 + y, nm, s)

/-- The section loop of `find_surface_height` (render_chunk.py lines
386-410) over the given descending section-index list. -/
def fshLoop (doc : ChunkDoc) (x z : Nat) : List Nat → Option (Nat × List Byte × Nat)
  | [] => some (0, emptyName, 0)
  | s :: ss =>
    match fshStep doc x z s with
    | .raise => none
    | .skip => fshLoop doc x z ss
    | .found r => some r

/-- `find_surface_height` (render_chunk.py lines 378-410): scan sections
9 down to 0, inside each section local Y 31 down to 0; `none` models a
raised exception. -/
def find_surface_height (doc : ChunkDoc) (x z : Nat) :
    Option (Nat × List Byte × Nat) :=
  fshLoop doc x z ((List.range 10).reverse)

/-- `range(319, surface_y, -1)`: world Y from 319 down to `sy + 1`. -/
def ysDesc (sy : Nat) : List Nat :=
  (List.range (319 - sy)).map (fun k => 319 - k)

/-- The final `return` of `find_surface_fluid` from the tracked state
`(type, topmostFluidY)`. -/
def fsfFinish (sy : Nat) : Option (List Byte × Nat) → Option (List Byte) × Nat
  | some (t, y0) => (some t, y0 - sy)
  | none => (none, 0)

/-- Outcome of one world-Y iteration of `find_surface_fluid`: a raised
exception, a `break` out of the scan, or a `continue` carrying the
(possibly updated) `(fluid_type, topmost_fluid_y)` state. -/
inductive FsfRes where
  | raise
  | brk
  | cont (st : Option (List Byte × Nat))
  deriving Repr, DecidableEq

/-- The per-Y work of `find_surface_fluid` (render_chunk.py lines
426-457): locate the section, skip it when fluid data is missing or
degenerate, read the cell, and update the scan state exactly as the
source's `continue` / `break` structure does. -/
def fsfStep (doc : ChunkDoc) (x z y : Nat) (st : Option (List Byte × Nat)) :
    FsfRes :=
  match doc[y / 32]? with
  | none => .cont st
  | some sec =>
    match sec.fluid with
    | none => .cont st
    | some fd =>
      if fd.length < 3 then .cont st
      else
        let fs := parse_fluid_section fd
        match fs.typeArr, fs.levelArr with
        | some ta, some la =>
          (match get_fluid_at fs.pal ta la fs.ptype x (y % 32) z with
           | none => .raise
           | some (cur, lvl) =>
             match cur with
             | some t =>
               if lvl > 0 then
                 match st with
                 | none => .cont (some (t, y))
                 | some (t0, _y0) => if t = t0 then .cont st else .brk
               else
                 match st with
                 | some _ => .brk
                 | none => .cont st
             | none =>
               match st with
               | some _ => .brk
               | none => .cont st)
        | _, _ => .cont st

/-- The scan loop of `find_surface_fluid` (render_chunk.py lines
425-457) over the given descending world-Y list, carrying the
`(fluid_type, topmost_fluid_y)` state; `none` models a raised
exception; `break` falls through to the same final `return` as loop
exhaustion. -/
def fsfLoop (doc : ChunkDoc) (x z sy : Nat) :
    List Nat → Option (List Byte × Nat) → Option (Option (List Byte) × Nat)
  | [], st => some (fsfFinish sy st)
  | y :: ys, st =>
    match fsfStep doc x z y st with
    | .raise => none
    | .brk => some (fsfFinish sy st)
    | .cont st1 => fsfLoop doc x z sy ys st1

/-- `find_surface_fluid` (render_chunk.py lines 413-464). -/
def find_surface_fluid (doc : ChunkDoc) (x z sy : Nat) :
    Option (Option (List Byte) × Nat) :=
  fsfLoop doc x z sy (ysDesc sy) none

/-- `s` starts with `pat` (byte-list version of `str.startswith`). -/
def beginsWith : List Byte → List Byte → Bool
  | _, [] => true
  | [], _ :: _ => false
  | a :: s, b :: p => a == b && beginsWith s p

/-- `pat in s` (byte-list version of Python substring containment). -/
def hasSub : List Byte → List Byte → Bool
  | [], pat => pat.isEmpty
  | a :: t, pat => beginsWith (a :: t) pat || hasSub t pat

/-- Python `int()` truncation toward zero on an exact rational. -/
def ratTrunc (q : ℚ) : Int :=
  if q < 0 then -Int.floor (-q) else Int.floor q

/-- The per-channel blend of `blend_fluid_color`:
`int(fluid + (terrain - fluid) * m)` then clamp to `[0, 255]`.  The
source computes `m` in floating point; at the depths relevant to the
claims below (`depth ≤ 1`, unrecognized types) the float computation is
exact, and it is modelled here by exact rationals. -/
def blendChannel (t f : Nat) (m : ℚ) : Nat :=
  (min 255 (max 0 (ratTrunc ((f : ℚ) + ((t : ℚ) - (f : ℚ)) * m)))).toNat

/-- The hardcoded fluid color selection of `blend_fluid_color`
(render_chunk.py lines 350-358): substring match for `Water`, then
`Lava`, else no color. -/
def fluidColorOf (nm : List Byte) : Option RGB :=
  if hasSub nm waterName then some (25, 131, 217)
  else if hasSub nm lavaName then some (249, 78, 17)
  else none

/-- `blend_fluid_color` (render_chunk.py lines 339-375):
`depth_multiplier = min(1.0, 1.0 / max(1, fluid_level))`, then the
per-channel blend, clamped.  `ftype = none` / an empty name / level 0
return the terrain color unchanged, as does an unrecognized type. -/
def blend_fluid_color (tc : RGB) (ftype : Option (List Byte)) (lvl : Nat) : RGB :=
  if ftype = none ∨ ftype = some [] ∨ lvl = 0 then tc
  else
    match fluidColorOf (ftype.getD []) with
    | none => tc
    | some f =>
      let m : ℚ := min 1 (1 / max 1 (lvl : ℚ))
      (blendChannel tc.1 f.1 m, blendChannel tc.2.1 f.2.1 m, blendChannel tc.2.2 f.2.2 m)

/-- `calculate_shading` (render_chunk.py lines 580-646), over the real
numbers (the source uses IEEE doubles; the flat-neighborhood claim
below is exact in both models). -/
noncomputable def calculate_shading (height n s w e nw ne sw se u v : ℝ) : ℝ :=
  let ud := (u + v) / 2
  let vd := (1 - u + v) / 2
  let dhdx1 := (height - w) * (1 - u) + (e - height) * u
  let dhdz1 := (height - n) * (1 - v) + (s - height) * v
  let dhdx2 := (height - nw) * (1 - ud) + (se - height) * ud
  let dhdz2 := (height - ne) * (1 - vd) + (sw - height) * vd
  let dhdx := dhdx1 * 2 + dhdx2
  let dhdz := dhdz1 * 2 + dhdz2
  let dy : ℝ := 3
  let nx := dhdx
  let ny := dy
  let nz := dhdz
  let invS := 1 / Real.sqrt (nx * nx + ny * ny + nz * nz)
  let nx1 := nx * invS
  let ny1 := ny * invS
  let nz1 := nz * invS
  let lx : ℝ := -0.2
  let ly : ℝ := 0.8
  let lz : ℝ := 0.5
  let invL := 1 / Real.sqrt (lx * lx + ly * ly + lz * lz)
  let lx1 := lx * invL
  let ly1 := ly * invL
  let lz1 := lz * invL
  let lambert := max 0 (nx1 * lx1 + ny1 * ly1 + nz1 * lz1)
  0.4 + 0.6 * lambert

/-- A signed RGB triple (the compositor works on Python ints, which can
temporarily leave `[0, 255]`). -/
abbrev RGBI := Int × Int × Int

/-- Value of one hexadecimal digit character, as accepted by
`int(c, 16)` for the characters appearing in color strings. -/
def hexDigit (c : Byte) : Option Nat :=
  if 48 ≤ c ∧ c ≤ 57 then some (c - 48)
  else if 65 ≤ c ∧ c ≤ 70 then some (c - 55)
  else if 97 ≤ c ∧ c ≤ 102 then some (c - 87)
  else none

/-- `int(s[i:i+2], 16)`: Python slicing may yield one character (still
valid) or an empty slice (`int` raises, modelled as `none`). -/
def hexPair (s : List Byte) (i : Nat) : Option Nat :=
  match (s.drop i).take 2 with
  | [] => none
  | [c] => hexDigit c
  | [c1, c2] =>
    match hexDigit c1, hexDigit c2 with
    | some a, some b => some (16 * a + b)
    | _, _ => none
  | _ => none

/-- `hex_to_rgb` (render_chunk.py lines 34-41): `None` for a string not
starting with `#`; `lstrip('#')`; a 3-digit form is doubled; then the
three byte pairs are parsed.  A `ValueError` raised by `int(_, 16)` is
merged into `none` (no claim depends on that distinction). -/
def hex_to_rgb (s : List Byte) : Option RGBI :=
  match s with
  | [] => none
  | c :: _ =>
    if c ≠ 35 then none
    else
      let t := s.dropWhile (fun b => b == 35)
      let t2 := if t.length = 3 then t.flatMap (fun b => [b, b]) else t
      match hexPair t2 0, hexPair t2 2, hexPair t2 4 with
      | some r, some g, some b => some ((r : Int), (g : Int), (b : Int))
      | _, _, _ => none

/-- One entry of `block_properties.json` (the external static table):
`TintUp` (a possibly empty list of hex strings), `BiomeTintUp`, and an
optional `ParticleColor` hex string.  A JSON `null` / absent
`ParticleColor` is `none`. -/
structure BlockProps where
  tintUp : List (List Byte)
  biomeTintUp : ℚ
  particleColor : Option (List Byte)

/-- Lookup of `properties[name]` (JSON object keys are unique). -/
def propsGet (props : List (List Byte × BlockProps)) (k : List Byte) :
    Option BlockProps :=
  (props.find? (fun p => p.1 == k)).map (fun p => p.2)

/-- The exact-match stage of `get_block_color` (render_chunk.py lines
489-506), producing the `(base_color, biome_tint_percent,
particle_color)` state. -/
def exactStep (props : List (List Byte × BlockProps)) (nm : List Byte) :
    Option RGBI × ℚ × Option RGBI :=
  match propsGet props nm with
  | none => (none, 0, none)
  | some pr =>
    let bt : Option RGBI × ℚ :=
      match pr.tintUp with
      | [] => (none, 0)
      | hx :: _ => (hex_to_rgb hx, pr.biomeTintUp)
    let p1 : Option RGBI :=
      match pr.particleColor with
      | none => none
      | some hx =>
        match hex_to_rgb hx with
        | some c => some c
        | none => none
    if bt.1 = none ∧ p1 ≠ none then (p1, bt.2, none) else (bt.1, bt.2, p1)

/-- The partial-match loop of `get_block_color` (render_chunk.py lines
509-531): iterate the property entries in order; on a key that is a
prefix of the block name, update the `(base, percent, particle)` state
exactly as the source does, and stop at the first entry that leaves
`base_color` set. -/
def partialScan (nm : List Byte) :
    List (List Byte × BlockProps) → Option RGBI × ℚ × Option RGBI →
    Option RGBI × ℚ × Option RGBI
  | [], st => st
  | (k, pr) :: rest, (b, t, p) =>
    if beginsWith nm k then
      let bt : Option RGBI × ℚ :=
        match pr.tintUp with
        | [] => (b, t)
        | hx :: _ => (hex_to_rgb hx, pr.biomeTintUp)
      let p1 : Option RGBI :=
        match pr.particleColor with
        | none => p
        | some hx =>
          match hex_to_rgb hx with
          | some c => some c
          | none => p
      let bp : Option RGBI × Option RGBI :=
        if bt.1 = none ∧ p1 ≠ none then (p1, none) else (bt.1, p1)
      if bp.1 ≠ none then (bp.1, bt.2, bp.2)
      else partialScan nm rest (bp.1, bt.2, bp.2)
    else partialScan nm rest (b, t, p)

/-- Keyword substrings used by the fallback table. -/
def grassName : List Byte := [71, 114, 97, 115, 115]

/-- The byte string `Leaves`. -/
def leavesName : List Byte := [76, 101, 97, 118, 101, 115]

/-- The byte string `Stone`. -/
def stoneName : List Byte := [83, 116, 111, 110, 101]

/-- The byte string `Rock`. -/
def rockName : List Byte := [82, 111, 99, 107]

/-- The byte string `Wood`. -/
def woodName : List Byte := [87, 111, 111, 100]

/-- The byte string `Trunk`. -/
def trunkName : List Byte := [84, 114, 117, 110, 107]

/-- The byte string `Dirt`. -/
def dirtName : List Byte := [68, 105, 114, 116]

/-- The byte string `Soil`. -/
def soilName : List Byte := [83, 111, 105, 108]

/-- The byte string `Sand`. -/
def sandName : List Byte := [83, 97, 110, 100]

/-- The keyword-heuristic fallback colors of `get_block_color`
(render_chunk.py lines 534-553). -/
def keywordColor (nm : List Byte) : RGBI :=
  if hasSub nm grassName then (103, 182, 45)
  else if hasSub nm leavesName then (75, 133, 25)
  else if hasSub nm stoneName ∨ hasSub nm rockName then (120, 120, 120)
  else if hasSub nm woodName ∨ hasSub nm trunkName then (120, 90, 50)
  else if hasSub nm dirtName ∨ hasSub nm soilName then (139, 90, 43)
  else if hasSub nm sandName then (220, 215, 200)
  else if hasSub nm waterName then (63, 118, 228)
  else (128, 128, 128)

/-- The biome-tint blend and particle-color multiply of
`get_block_color` (render_chunk.py lines 556-575); `//` is Python floor
division, `int()` truncates toward zero. -/
def applyTintAndParticle (base : RGBI) (btp : ℚ) (pc : Option RGBI)
    (tint : Option RGBI) : RGBI :=
  let pmul := fun (b : RGBI) (pcc : RGBI) =>
    ((b.1 * pcc.1).fdiv 255, (b.2.1 * pcc.2.1).fdiv 255, (b.2.2 * pcc.2.2).fdiv 255)
  match tint with
  | some tv =>
    if btp > 0 then
      let m := btp / 100
      let blend := fun (b tc : Int) => ratTrunc ((b : ℚ) * (1 - m) + (tc : ℚ) * m)
      let b2 : RGBI := (blend base.1 tv.1, blend base.2.1 tv.2.1, blend base.2.2 tv.2.2)
      match pc with
      | some pcc => if m < 1 then pmul b2 pcc else b2
      | none => b2
    else
      match pc with
      | some pcc => pmul base pcc
      | none => base
  | none =>
    match pc with
    | some pcc => pmul base pcc
    | none => base

/-- `get_block_color` (render_chunk.py lines 467-577), with the static
property table passed explicitly (the source loads it once from an
external JSON file). -/
def get_block_color (props : List (List Byte × BlockProps)) (nm : List Byte)
    (tint : Option RGBI) : RGBI :=
  if nm = emptyName then (0, 0, 0)
  else
    let st0 := exactStep props nm
    let st1 := if st0.1 = none then partialScan nm props st0 else st0
    match st1.1 with
    | some bc => applyTintAndParticle bc st1.2.1 st1.2.2 tint
    | none => applyTintAndParticle (keywordColor nm) st1.2.1 st1.2.2 tint

/-
  Claim-side definitions.  Each of the following is written from the
  wording of the specification (not from the source), to be compared
  with the embedded source functions above.
-/

/-- Modelled from the spec wording for `unpackTenBitIndices`: the value
of entry `i` is `((byte1 >> bitInByte) | (byte2 << (8 - bitInByte))) &
0x3FF` with `byte2` "treated as 0 if out of range".  (The source, by
contrast, skips any entry whose second byte is out of range.) -/
def claimTenBit (data : List Byte) (i : Nat) : Nat :=
  let bitOff := i * 10
  let byteOff := bitOff / 8
  let bitIn := bitOff % 8
  ((data.getD byteOff 0 >>> bitIn) ||| (data.getD (byteOff + 1) 0 <<< (8 - bitIn))) &&& 0x3FF

/-- The closed form of one heightmap cell: entry `i` decoded with the
palette fallback to `0` (also the value of a never-written cell). -/
def heightValueAt (packed : List Byte) (pal : List Nat) (i : Nat) : Nat :=
  match decodeTenBit packed i with
  | some v => if v < pal.length then pal.getD v 0 else 0
  | none => 0

/-- The closed form of one tint cell: entry `i` decoded with the white
fallback; a never-written cell stays `none`. -/
def tintValueAt (packed : List Byte) (pal : List RGB) (i : Nat) : Option RGB :=
  match decodeTenBit packed i with
  | some v => some (if v < pal.length then pal.getD v (255, 255, 255) else (255, 255, 255))
  | none => none

/-- Status of one scanned cell in the spec description of
`findSurfaceHeight`. -/
inductive CellR where
  | err
  | skip
  | hit (nm : List Byte)
  deriving Repr, DecidableEq

/-- Modelled from the spec wording for `findSurfaceHeight`: the status
of the cell at section `s`, local Y `y` of column `(x, z)` — skipped
when the section has no block data or the decoded name is `Empty` or
starts with `*`; `err` when decoding raises. -/
def cellState (doc : ChunkDoc) (x z s y : Nat) : CellR :=
  match doc[s]? with
  | none => .err
  | some sec =>
    match sec.block with
    | none => .skip
    | some bd =>
      match parse_block_section bd with
      | none => .err
      | some bs =>
        match bs.arr with
        | none => .skip
        | some arr =>
          match get_block_at bs.pal (some arr) bs.ptype x y z with
          | none => .err
          | some nm =>
            if nm = emptyName ∨ nm.headD 0 = 42 then .skip else .hit nm

/-- First solid hit over an explicit scan order, defaulting to
`(0, Empty, 0)`. -/
def specGo (doc : ChunkDoc) (x z : Nat) :
    List (Nat × Nat) → Option (Nat × List Byte × Nat)
  | [] => some (0, emptyName, 0)
  | (s, y) :: rest =>
    match cellState doc x z s y with
    | .err => none
    | .skip => specGo doc x z rest
    | .hit nm => some (s * 32 + y, nm, s)

/-- The scan order of the spec: sections 9 down to 0, and inside each
section local Y 31 down to 0. -/
def surfacePairs : List (Nat × Nat) :=
  ((List.range 10).reverse).flatMap
    (fun s => ((List.range 32).reverse).map (fun y => (s, y)))

/-- Modelled from the spec wording for `findSurfaceHeight`: the first
solid cell in the scan order, or `(0, Empty, 0)`. -/
def surfaceHeightSpec (doc : ChunkDoc) (x z : Nat) :
    Option (Nat × List Byte × Nat) :=
  specGo doc x z surfacePairs

/-- Modelled from the spec wording for `findSurfaceFluid`: the fluid
cell probed at world Y `y` of column `(x, z)` — `some (type, y)` when
the cell holds a non-empty fluid of positive level, `none` otherwise
(including sections skipped for missing or degenerate fluid data). -/
def fluidProbe (doc : ChunkDoc) (x z y : Nat) : Option (List Byte × Nat) :=
  match doc[y / 32]? with
  | none => none
  | some sec =>
    match sec.fluid with
    | none => none
    | some fd =>
      if fd.length < 3 then none
      else
        let fs := parse_fluid_section fd
        match fs.typeArr, fs.levelArr with
        | some ta, some la =>
          (match get_fluid_at fs.pal ta la fs.ptype x (y % 32) z with
           | some (some t, lvl) => if lvl > 0 then some (t, y) else none
           | _ => none)
        | _, _ => none

/-- Modelled from the spec wording for `findSurfaceFluid`: scan world Y
from 319 down to `surfaceY + 1`; at the topmost positive fluid return
`(type, thatY - surfaceY)`, otherwise `(none, 0)`. -/
def surfaceFluidSpec (doc : ChunkDoc) (x z sy : Nat) :
    Option (List Byte) × Nat :=
  match (ysDesc sy).findSome? (fun y => fluidProbe doc x z y) with
  | some (t, y) => (some t, y - sy)
  | none => (none, 0)

/-
  Serializers used to state the corrected palette-layout claim: they
  build byte blobs in the two entry layouts that actually occur in the
  sources, so that the parsers can be run on well-formed input.
-/

/-- Big-endian 16-bit encoding. -/
def u16BE (n : Nat) : List Byte := [n / 256 % 256, n % 256]

/-- Big-endian 32-bit encoding. -/
def u32BE (n : Nat) : List Byte :=
  [n / 16777216 % 256, n / 65536 % 256, n / 256 % 256, n % 256]

/-- One palette entry as `decode_blocks` (getChunkBlocks.py) reads it:
no id field, `(nameLength, name, count, trailingByte)`. -/
structure GEntry where
  name : List Byte
  count : Nat
  trailing : Byte

/-- Serialization of one `decode_blocks` palette entry. -/
def mkGBEntry (e : GEntry) : List Byte :=
  u16BE e.name.length ++ e.name ++ u16BE e.count ++ [e.trailing]

/-- A whole `decode_blocks` blob: the `>Ibhb` header followed by the
id-less palette entries (and any trailing bytes). -/
def mkGetBlocksBlob (u1 pf u2 : Byte) (es : List GEntry) (tail : List Byte) :
    List Byte :=
  u32BE u1 ++ [pf] ++ u16BE es.length ++ [u2] ++ (es.map mkGBEntry).flatten ++ tail

/-- One palette entry as `parse_block_section` (render_chunk.py) reads
it for a non-Short encoding: an explicit stored one-byte id, then
`(nameLength, name, count)` — and no trailing byte. -/
structure REntry where
  id : Byte
  name : List Byte
  count : Nat

/-- Serialization of one `parse_block_section` palette entry
(one-byte-id form). -/
def mkREntry (e : REntry) : List Byte :=
  [e.id] ++ u16BE e.name.length ++ e.name ++ u16BE e.count

/-- A whole Byte-encoded block-section blob for `parse_block_section`:
migration count, encoding byte 2, palette size, id-bearing entries,
then the index-array bytes. -/
def mkRenderBlockBlob (mig : Nat) (es : List REntry) (arr : List Byte) :
    List Byte :=
  u32BE mig ++ [2] ++ u16BE es.length ++ (es.map mkREntry).flatten ++ arr

/-- A concrete block-section blob: migration 0, encoding Byte, one
palette entry with stored id 5 and name `A`, and an empty index array. -/
def c1Blob : List Byte := [0, 0, 0, 0, 2, 0, 1, 5, 0, 1, 65, 0, 1]

/-- A ten-section document with no block and no fluid data anywhere. -/
def emptyDoc : ChunkDoc := List.replicate 10 ⟨none, none⟩

/-- The type-array byte size selected by a fluid palette encoding. -/
def arrSizeOf (pt : Nat) : Nat :=
  if pt = 1 then 16384 else if pt = 2 then 32768 else 65536

/-- Structural invariant of `parse_fluid_section` results: either both
arrays are absent, or both are present with their full sizes and a
known encoding. -/
def FluidInv (fs : FluidSection) : Prop :=
  (fs.typeArr = none ∧ fs.levelArr = none) ∨
  (∃ ta la, fs.typeArr = some ta ∧ fs.levelArr = some la ∧
    la.length = 16384 ∧ ta.length = arrSizeOf fs.ptype ∧
    (fs.ptype = 1 ∨ fs.ptype = 2 ∨ fs.ptype = 3))

/-
  Lemmas.
-/

lemma land_31_eq_mod (n : Nat) : n &&& 31 = n % 32 := by
  have h := Nat.and_pow_two_sub_one_eq_mod n 5
  norm_num at h
  exact h

lemma land_15_eq_mod (n : Nat) : n &&& 15 = n % 16 := by
  have h := Nat.and_pow_two_sub_one_eq_mod n 4
  norm_num at h
  exact h

lemma shiftRight4_land15 (b : Nat) : (b >>> 4) &&& 15 = b / 16 % 16 := by
  rw [land_15_eq_mod, Nat.shiftRight_eq_div_pow]

lemma cellIndex_decomp (x y z : Nat) :
    cellIndex x y z = 1024 * (y % 32) + 32 * (z % 32) + x % 32 := by
  unfold cellIndex
  rw [land_31_eq_mod, land_31_eq_mod, land_31_eq_mod, Nat.shiftLeft_eq,
    Nat.shiftLeft_eq, Nat.lor_assoc]
  have hx : x % 32 < 32 := Nat.mod_lt _ (by norm_num)
  have hz : z % 32 < 32 := Nat.mod_lt _ (by norm_num)
  have h1 : z % 32 * 2 ^ 5 ||| x % 32 = 2 ^ 5 * (z % 32) + x % 32 := by
    rw [mul_comm]
    exact (Nat.mul_add_lt_is_or (by omega) _).symm
  rw [h1]
  have h2 : y % 32 * 2 ^ 10 ||| (2 ^ 5 * (z % 32) + x % 32) =
      2 ^ 10 * (y % 32) + (2 ^ 5 * (z % 32) + x % 32) := by
    rw [mul_comm (y % 32)]
    exact (Nat.mul_add_lt_is_or (by omega) _).symm
  rw [h2]
  ring

lemma cellIndex_lt (x y z : Nat) : cellIndex x y z < 32768 := by
  rw [cellIndex_decomp]
  have hx : x % 32 < 32 := Nat.mod_lt _ (by norm_num)
  have hy : y % 32 < 32 := Nat.mod_lt _ (by norm_num)
  have hz : z % 32 < 32 := Nat.mod_lt _ (by norm_num)
  omega

/-- C6.  Cell addressing and palette-id reads: the flat index
`((y & 31) << 10) | ((z & 31) << 5) | (x & 31)` is the Y-major,
then-Z, then-X index `1024·(y mod 32) + 32·(z mod 32) + (x mod 32)`;
and the id `get_block_at` reads from the index array is, for HalfByte
encoding, the low nibble of `array[flat/2]` when `flat` is even and the
high nibble when odd; for Byte encoding, `array[flat]`; for Short
encoding, the big-endian 16-bit value at `array[2·flat .. 2·flat+2)`. -/
theorem c6_cell_addressing (pal : List (Nat × List Byte)) (arr : List Byte)
    (x y z : Nat) :
    cellIndex x y z = 1024 * (y % 32) + 32 * (z % 32) + x % 32 ∧
    (∀ b, arr[cellIndex x y z / 2]? = some b →
      get_block_at pal (some arr) 1 x y z =
        some (dictGetD pal
          (if cellIndex x y z % 2 = 0 then b % 16 else b / 16 % 16) emptyName)) ∧
    (∀ b, arr[cellIndex x y z]? = some b →
      get_block_at pal (some arr) 2 x y z = some (dictGetD pal b emptyName)) ∧
    (∀ b0 b1, arr[cellIndex x y z * 2]? = some b0 →
      arr[cellIndex x y z * 2 + 1]? = some b1 →
      get_block_at pal (some arr) 3 x y z =
        some (dictGetD pal (b0 * 256 + b1) emptyName)) := by
  have hsr : ∀ c : Nat, c >>> 4 = c / 16 := by
    intro c
    rw [Nat.shiftRight_eq_div_pow]
  refine ⟨cellIndex_decomp x y z, ?_, ?_, ?_⟩
  · intro b hb
    simp only [get_block_at, if_pos rfl, hb, hsr, land_15_eq_mod]
    simp
  · intro b hb
    have h2 : (2 : Nat) ≠ 1 := by decide
    simp only [get_block_at, if_neg h2, if_pos rfl, hb]
    simp
  · intro b0 b1 hb0 hb1
    have h31 : (3 : Nat) ≠ 1 := by decide
    have h32 : (3 : Nat) ≠ 2 := by decide
    simp only [get_block_at, if_neg h31, if_neg h32, if_pos rfl, hb0, hb1]
    simp

/-- C5 (amended).  The inline ten-bit decoder decodes entry `i` only
when `byteOffset + 1 < len(buffer)`; for such entries the value is
`((byte1 >> bitInByte) | (byte2 << (8 - bitInByte))) & 0x3FF` with both
bytes read from the buffer (the treated-as-0 branch for `byte2` is
unreachable); entries whose byte pair is not fully in range are not
decoded at all; and for a full 1280-byte buffer every entry in
`[0, 1023]` is decoded. -/
theorem c5_ten_bit_unpack (data : List Byte) (i : Nat) :
    (i * 10 / 8 + 1 < data.length →
      decodeTenBit data i =
        some (((data.getD (i * 10 / 8) 0 >>> (i * 10 % 8)) |||
          (data.getD (i * 10 / 8 + 1) 0 <<< (8 - i * 10 % 8))) &&& 0x3FF)) ∧
    (¬ i * 10 / 8 + 1 < data.length → decodeTenBit data i = none) ∧
    (data.length = 1280 → i < 1024 → i * 10 / 8 + 1 < data.length) := by
  refine ⟨?_, ?_, ?_⟩
  · intro h
    simp only [decodeTenBit, if_pos h]
  · intro h
    simp only [decodeTenBit, if_neg h]
  · intro hlen hi
    omega

set_option maxRecDepth 40000 in
/-- Counterexample to C5 as stated: on the one-byte buffer `[3]`,
entry 0 has its second byte out of range; the claim prescribes the
decoded value `(3 >> 0) | (0 << 8) & 0x3FF = 3`, but the source decodes
nothing (the cell keeps the fallback `0`, not the palette entry `9`
that index 3 would select). -/
theorem c5_counterexample :
    decodeTenBit [3] 0 = none ∧
    claimTenBit [3] 0 = 3 ∧
    heightGrid [3] [5, 6, 7, 9] 0 0 = 0 ∧
    [5, 6, 7, 9].getD (claimTenBit [3] 0) 0 = 9 := by
  refine ⟨by decide, by decide, ?_, by decide⟩
  decide

set_option maxRecDepth 40000 in
/-- Witness for C5 on concrete inputs. -/
theorem c5_ten_bit_unpack_witness :
    decodeTenBit [1, 2] 0 = some (((1 >>> 0) ||| (2 <<< 8)) &&& 0x3FF) ∧
    decodeTenBit [7] 0 = none ∧
    (5 : Nat) * 10 / 8 + 1 < (List.replicate 1280 (0 : Byte)).length := by
  refine ⟨?_, ?_, ?_⟩
  · have h := (c5_ten_bit_unpack [1, 2] 0).1 (by decide)
    rw [h]
    decide
  · exact (c5_ten_bit_unpack [7] 0).2.1 (by decide)
  · exact (c5_ten_bit_unpack (List.replicate 1280 0) 5).2.2 (by decide) (by decide)

lemma rU16BE_u16BE (n : Nat) (h : n < 65536) (r : List Byte) :
    rU16BE (u16BE n ++ r) = some (n, r) := by
  simp only [u16BE, List.cons_append, List.nil_append, rU16BE]
  have h2 : n / 256 % 256 * 256 + n % 256 = n := by omega
  rw [h2]

lemma rI16BE_u16BE (n : Nat) (h : n < 32768) (r : List Byte) :
    rI16BE (u16BE n ++ r) = some ((n : Int), r) := by
  simp only [u16BE, List.cons_append, List.nil_append, rI16BE]
  have h2 : n / 256 % 256 * 256 + n % 256 = n := by omega
  rw [h2, if_pos h]

lemma rU32BE_u32BE (n : Nat) (h : n < 4294967296) (r : List Byte) :
    rU32BE (u32BE n ++ r) = some (n, r) := by
  simp only [u32BE, List.cons_append, List.nil_append, rU32BE]
  have h2 : ((n / 16777216 % 256 * 256 + n / 65536 % 256) * 256 + n / 256 % 256) * 256 +
      n % 256 = n := by omega
  rw [h2]

lemma readN_append (a r : List Byte) (n : Nat) (h : a.length = n) :
    readN n (a ++ r) = some (a, r) := by
  unfold readN
  rw [if_pos (by simp [List.length_append]; omega)]
  rw [List.take_left' h, List.drop_left' h]

lemma readUpToI_append (a r : List Byte) :
    readUpToI (a.length : Int) (a ++ r) = (a, r) := by
  unfold readUpToI
  rw [if_neg (by omega)]
  simp only [Int.toNat_ofNat]
  rw [List.take_left' rfl, List.drop_left' rfl]

lemma readN_exact (a r : List Byte) : readN a.length (a ++ r) = some (a, r) :=
  readN_append a r _ rfl

lemma readGBEntries_append :
    ∀ (es : List GEntry) (acc : List (List Byte)) (tail : List Byte),
      (∀ e ∈ es, e.name.length < 32768) →
      readGBEntries es.length ((es.map mkGBEntry).flatten ++ tail) acc =
        some (acc.reverse ++ es.map GEntry.name, tail) := by
  intro es
  induction es with
  | nil =>
    intro acc tail _
    simp [readGBEntries]
  | cons e es ih =>
    intro acc tail h
    have he : e.name.length < 32768 := h e (by simp)
    have hstream : (((e :: es).map mkGBEntry).flatten ++ tail) =
        u16BE e.name.length ++ (e.name ++ (u16BE e.count ++ ([e.trailing] ++
          ((es.map mkGBEntry).flatten ++ tail)))) := by
      simp [mkGBEntry, List.append_assoc]
    rw [List.length_cons, hstream]
    simp only [readGBEntries, rI16BE_u16BE e.name.length he, readUpToI_append]
    simp only [u16BE, List.cons_append, List.nil_append]
    rw [ih (e.name :: acc) tail (fun x hx => h x (List.mem_cons_of_mem _ hx))]
    simp

lemma readREntries_append :
    ∀ (es : List REntry) (acc : List (Nat × List Byte)) (arr : List Byte),
      (∀ e ∈ es, e.name.length < 65536) →
      readPaletteEntriesF 2 es.length ((es.map mkREntry).flatten ++ arr) acc =
        (acc.reverse ++ es.map (fun e => (e.id, e.name)), some arr) := by
  intro es
  induction es with
  | nil =>
    intro acc arr _
    simp [readPaletteEntriesF]
  | cons e es ih =>
    intro acc arr h
    have he : e.name.length < 65536 := h e (by simp)
    have hstream : (((e :: es).map mkREntry).flatten ++ arr) =
        e.id :: (u16BE e.name.length ++ (e.name ++ (u16BE e.count ++
          ((es.map mkREntry).flatten ++ arr)))) := by
      simp [mkREntry, List.append_assoc]
    rw [List.length_cons, hstream]
    simp only [readPaletteEntriesF, if_neg (show ¬(2 : Nat) = 3 by decide), rU8,
      rU16BE_u16BE e.name.length he, readN_exact]
    simp only [u16BE, List.cons_append, List.nil_append, rU16BE]
    rw [ih ((e.id, e.name) :: acc) arr (fun x hx => h x (List.mem_cons_of_mem _ hx))]
    simp

/-- C1 (amended).  Palette-id assignment differs per decoder, not per
block/fluid kind: `decode_blocks` (getChunkBlocks.py) reads id-less
entries `(nameLength, name, count, trailingByte)` and binds entry `i`
to position `i` of its palette list, but `parse_block_section`
(render_chunk.py) reads an explicit stored id per block-palette entry
(followed by `nameLength, name, count`, with no trailing byte) exactly
like the fluid-section palette does. -/
theorem c1_palette_layout :
    (∀ (u1 pf u2 : Byte) (es : List GEntry) (tail : List Byte),
      u1 < 256 → pf < 128 → u2 < 128 → es.length < 32768 →
      (∀ e ∈ es, e.name.length < 32768) →
      decode_blocks (mkGetBlocksBlob u1 pf u2 es tail) = some (es.map GEntry.name)) ∧
    (∀ (mig : Nat) (es : List REntry) (arr : List Byte),
      mig < 4294967296 → es.length < 65536 →
      (∀ e ∈ es, e.name.length < 65536) →
      parse_block_section (mkRenderBlockBlob mig es arr) =
        some ⟨es.map (fun e => (e.id, e.name)), some (arr.take 32768), 2⟩) := by
  constructor
  · intro u1 pf u2 es tail hu1 hpf hu2 hlen hnm
    unfold mkGetBlocksBlob decode_blocks
    rw [show u32BE u1 ++ [pf] ++ u16BE es.length ++ [u2] ++
        (es.map mkGBEntry).flatten ++ tail =
        u32BE u1 ++ (pf :: (u16BE es.length ++ (u2 ::
          ((es.map mkGBEntry).flatten ++ tail)))) from by simp [List.append_assoc]]
    rw [rU32BE_u32BE u1 (lt_trans hu1 (by norm_num))]
    simp only [rI8, rI16BE_u16BE es.length hlen, if_pos hpf, if_pos hu2]
    rw [show ((es.length : Int)).toNat = es.length from Int.toNat_ofNat es.length]
    rw [readGBEntries_append es [] tail hnm]
    simp
  · intro mig es arr hmig hlen hnm
    unfold mkRenderBlockBlob parse_block_section
    rw [show u32BE mig ++ [2] ++ u16BE es.length ++ (es.map mkREntry).flatten ++ arr =
        u32BE mig ++ ((2 : Byte) :: (u16BE es.length ++
          ((es.map mkREntry).flatten ++ arr))) from by simp [List.append_assoc]]
    rw [rU32BE_u32BE mig hmig]
    simp only [rU8, rU16BE_u16BE es.length hlen]
    rw [readREntries_append es [] arr hnm]
    simp

/-- Counterexample to C1 as stated: the 13-byte block-section blob
`c1Blob` (migration 0, encoding Byte, palette size 1, then the bytes
`05 0001 41 0001`) is decoded by `parse_block_section` into a palette
that binds the name `A` to the id `5` read from the stream — entry 0 is
not bound to id 0, so the block-section palette does store explicit
ids, not only the fluid one. -/
theorem c1_counterexample :
    parse_block_section c1Blob = some ⟨[(5, [65])], some [], 2⟩ ∧
    dictGet [(5, [65])] 0 = none ∧
    dictGet [(5, [65])] 5 = some [65] := by
  refine ⟨by decide, by decide, by decide⟩

/-- Witness for C1 on concrete inputs: a two-entry id-less blob decoded
positionally by `decode_blocks`, and a one-entry id-bearing blob
decoded by `parse_block_section`. -/
theorem c1_palette_layout_witness :
    decode_blocks (mkGetBlocksBlob 10 1 0 [⟨[65], 3, 7⟩, ⟨[66, 67], 1, 0⟩] [9]) =
      some [[65], [66, 67]] ∧
    parse_block_section (mkRenderBlockBlob 0 [⟨5, [65], 1⟩] []) =
      some ⟨[(5, [65])], some [], 2⟩ := by
  constructor
  · have h := c1_palette_layout.1 10 1 0 [⟨[65], 3, 7⟩, ⟨[66, 67], 1, 0⟩] [9]
      (by decide) (by decide) (by decide) (by decide) (by decide)
    rw [h]
    decide
  · have h := c1_palette_layout.2 0 [⟨5, [65], 1⟩] []
      (by decide) (by decide) (by decide)
    rw [h]
    decide

lemma heightGrid_aux (packed : List Byte) (pal : List Nat) :
    ∀ n z x, z < 32 → x < 32 →
      ((List.range n).foldl (heightStep packed pal) (fun _ _ => 0)) z x =
        if z * 32 + x < n then heightValueAt packed pal (z * 32 + x) else 0 := by
  intro n
  induction n with
  | zero =>
    intro z x hz hx
    simp
  | succ n ih =>
    intro z x hz hx
    rw [List.range_succ, List.foldl_append, List.foldl_cons, List.foldl_nil]
    by_cases hcell : z = n / 32 ∧ x = n % 32
    · have hn : z * 32 + x = n := by omega
      cases hdec : decodeTenBit packed n with
      | none =>
        simp only [heightStep, hdec]
        rw [ih z x hz hx, if_neg (by omega), if_pos (by omega), hn]
        simp only [heightValueAt, hdec]
      | some v =>
        simp only [heightStep, hdec, gset]
        rw [if_pos hcell, hn, if_pos (Nat.lt_succ_self n)]
        simp only [heightValueAt, hdec]
    · have hne : z * 32 + x ≠ n := by
        intro hEq
        exact hcell ⟨by omega, by omega⟩
      have hrest :
          ((List.range n).foldl (heightStep packed pal) (fun _ _ => 0)) z x =
            if z * 32 + x < n then heightValueAt packed pal (z * 32 + x) else 0 :=
        ih z x hz hx
      cases hdec : decodeTenBit packed n with
      | none =>
        simp only [heightStep, hdec]
        rw [hrest]
        by_cases hlt : z * 32 + x < n + 1
        · rw [if_pos (by omega), if_pos hlt]
        · rw [if_neg (by omega), if_neg hlt]
      | some v =>
        simp only [heightStep, hdec, gset]
        rw [if_neg hcell, hrest]
        by_cases hlt : z * 32 + x < n + 1
        · rw [if_pos (by omega), if_pos hlt]
        · rw [if_neg (by omega), if_neg hlt]

lemma tintGrid_aux (packed : List Byte) (pal : List RGB) :
    ∀ n z x, z < 32 → x < 32 →
      ((List.range n).foldl (tintStep packed pal) (fun _ _ => none)) z x =
        if x * 32 + z < n then tintValueAt packed pal (x * 32 + z) else none := by
  intro n
  induction n with
  | zero =>
    intro z x hz hx
    simp
  | succ n ih =>
    intro z x hz hx
    rw [List.range_succ, List.foldl_append, List.foldl_cons, List.foldl_nil]
    by_cases hcell : z = n % 32 ∧ x = n / 32
    · have hn : x * 32 + z = n := by omega
      cases hdec : decodeTenBit packed n with
      | none =>
        simp only [tintStep, hdec]
        rw [ih z x hz hx, if_neg (by omega), if_pos (by omega), hn]
        simp only [tintValueAt, hdec]
      | some v =>
        simp only [tintStep, hdec, gset]
        rw [if_pos hcell, hn, if_pos (Nat.lt_succ_self n)]
        simp only [tintValueAt, hdec]
    · have hne : x * 32 + z ≠ n := by
        intro hEq
        exact hcell ⟨by omega, by omega⟩
      have hrest :
          ((List.range n).foldl (tintStep packed pal) (fun _ _ => none)) z x =
            if x * 32 + z < n then tintValueAt packed pal (x * 32 + z) else none :=
        ih z x hz hx
      cases hdec : decodeTenBit packed n with
      | none =>
        simp only [tintStep, hdec]
        rw [hrest]
        by_cases hlt : x * 32 + z < n + 1
        · rw [if_pos (by omega), if_pos hlt]
        · rw [if_neg (by omega), if_neg hlt]
      | some v =>
        simp only [tintStep, hdec, gset]
        rw [if_neg hcell, hrest]
        by_cases hlt : x * 32 + z < n + 1
        · rw [if_pos (by omega), if_pos hlt]
        · rw [if_neg (by omega), if_neg hlt]

/-- C2.  The two 10-bit packed arrays use different coordinate
mappings: entry `i` of the heightmap lands at `heightmap[i / 32][i % 32]`
(column `x = i % 32`, row `z = i / 32`), while entry `i` of the tint
array lands at `tint[i % 32][i / 32]` (column `x = i / 32`, row
`z = i % 32`); and a decoded index at or beyond the palette length
yields height `0` and the white tint `(255, 255, 255)`. -/
theorem c2_coordinate_mappings (packed : List Byte) (hpal : List Nat)
    (tpal : List RGB) (i : Nat) (h : i < 1024) :
    heightGrid packed hpal (i / 32) (i % 32) = heightValueAt packed hpal i ∧
    tintGrid packed tpal (i % 32) (i / 32) = tintValueAt packed tpal i ∧
    (∀ v, decodeTenBit packed i = some v → hpal.length ≤ v → tpal.length ≤ v →
      heightGrid packed hpal (i / 32) (i % 32) = 0 ∧
      tintGrid packed tpal (i % 32) (i / 32) = some (255, 255, 255)) := by
  have hz : i / 32 < 32 := by omega
  have hx : i % 32 < 32 := by omega
  have hi : i / 32 * 32 + i % 32 = i := by omega
  have h1 : heightGrid packed hpal (i / 32) (i % 32) = heightValueAt packed hpal i := by
    unfold heightGrid
    rw [heightGrid_aux packed hpal 1024 (i / 32) (i % 32) hz hx, hi, if_pos h]
  have h2 : tintGrid packed tpal (i % 32) (i / 32) = tintValueAt packed tpal i := by
    unfold tintGrid
    rw [tintGrid_aux packed tpal 1024 (i % 32) (i / 32) hx hz, hi, if_pos h]
  refine ⟨h1, h2, ?_⟩
  intro v hdec hhv htv
  constructor
  · rw [h1]
    simp only [heightValueAt, hdec]
    rw [if_neg (by omega)]
  · rw [h2]
    simp only [tintValueAt, hdec]
    rw [if_neg (by omega)]

/-- Witness for C2: entry 0 of the buffer `[255, 3]` decodes to 1023,
which overflows the empty palettes, giving height 0 and a white tint. -/
theorem c2_coordinate_mappings_witness :
    heightGrid [255, 3] [] 0 0 = 0 ∧
    tintGrid [255, 3] [] 0 0 = some (255, 255, 255) := by
  have h := (c2_coordinate_mappings [255, 3] [] [] 0 (by decide)).2.2 1023
    (by decide) (by decide) (by decide)
  exact h

/-- Witness for C6 on concrete inputs: `cellIndex 1 2 3 = 2144`, and the
three encodings read `0x17 → 7` (even cell, low nibble), `[7] → 7`, and
`[0, 7] → 7` respectively. -/
theorem c6_cell_addressing_witness :
    cellIndex 1 2 3 = 1024 * 2 + 32 * 3 + 1 ∧
    get_block_at [(7, [66])] (some [23]) 1 0 0 0 = some [66] ∧
    get_block_at [(7, [66])] (some [7]) 2 0 0 0 = some [66] ∧
    get_block_at [(7, [66])] (some [0, 7]) 3 0 0 0 = some [66] := by
  refine ⟨(c6_cell_addressing [] [] 1 2 3).1, ?_, ?_, ?_⟩
  · have h := (c6_cell_addressing [(7, [66])] [23] 0 0 0).2.1 23 (by decide)
    rw [h]
    decide
  · have h := (c6_cell_addressing [(7, [66])] [7] 0 0 0).2.2.1 7 (by decide)
    rw [h]
    decide
  · have h := (c6_cell_addressing [(7, [66])] [0, 7] 0 0 0).2.2.2 0 7 (by decide) (by decide)
    rw [h]
    decide


lemma parse_fluid_inv (data : List Byte) : FluidInv (parse_fluid_section data) := by
  unfold parse_fluid_section
  dsimp only
  repeat' split
  all_goals try exact Or.inl ⟨rfl, rfl⟩
  all_goals right
  all_goals refine ⟨_, _, rfl, rfl, ?_, ?_, by assumption⟩
  all_goals simp only [List.length_take, List.length_drop] at *
  all_goals try omega
  all_goals simp only [arrSizeOf]
  all_goals split <;> omega

lemma fluid_arrays_sizes (fd : List Byte) (ta la : List Byte)
    (hta : (parse_fluid_section fd).typeArr = some ta)
    (hla : (parse_fluid_section fd).levelArr = some la) :
    ta.length = arrSizeOf (parse_fluid_section fd).ptype ∧ la.length = 16384 := by
  rcases parse_fluid_inv fd with ⟨h1, _⟩ | ⟨ta1, la1, h1, h2, h3, h4, _⟩
  · rw [h1] at hta
    exact absurd hta (by simp)
  · rw [h1] at hta
    rw [h2] at hla
    obtain rfl : ta1 = ta := by injection hta
    obtain rfl : la1 = la := by injection hla
    exact ⟨h4, h3⟩

lemma get_fluid_at_ne_none (pal : List (Nat × List Byte)) (ta la : List Byte)
    (pt x y z : Nat) (hta : ta.length = arrSizeOf pt) (hla : la.length = 16384) :
    get_fluid_at pal ta la pt x y z ≠ none := by
  have hflat : cellIndex x y z < 32768 := cellIndex_lt x y z
  have hlaidx : cellIndex x y z / 2 < la.length := by omega
  have hlevel : ∀ (nm : List Byte),
      (if nm = [] ∨ nm = emptyName then some ((none : Option (List Byte)), 0)
        else match la[cellIndex x y z / 2]? with
          | none => none
          | some b =>
            some (some nm, if cellIndex x y z % 2 = 0 then b &&& 15
              else (b >>> 4) &&& 15)) ≠ none := by
    intro nm
    by_cases hnm : nm = [] ∨ nm = emptyName
    · simp [hnm]
    · rw [if_neg hnm, List.getElem?_eq_getElem hlaidx]
      simp
  unfold get_fluid_at
  dsimp only
  by_cases h1 : pt = 1
  · subst h1
    simp only [arrSizeOf] at hta
    norm_num at hta
    rw [if_pos rfl]
    have hidx : cellIndex x y z / 2 < ta.length := by omega
    rw [List.getElem?_eq_getElem hidx]
    dsimp only
    cases hd : dictGet pal (if cellIndex x y z % 2 = 0 then ta[cellIndex x y z / 2] &&& 15
        else (ta[cellIndex x y z / 2] >>> 4) &&& 15) with
    | none => simp
    | some nm => exact hlevel nm
  rw [if_neg h1]
  by_cases h2 : pt = 2
  · subst h2
    simp only [arrSizeOf] at hta
    norm_num at hta
    rw [if_pos rfl]
    have hidx : cellIndex x y z < ta.length := by omega
    rw [List.getElem?_eq_getElem hidx]
    dsimp only
    cases hd : dictGet pal (ta[cellIndex x y z]) with
    | none => simp
    | some nm => exact hlevel nm
  rw [if_neg h2]
  by_cases h3 : pt = 3
  · subst h3
    simp only [arrSizeOf] at hta
    norm_num at hta
    rw [if_pos rfl]
    have hidx0 : cellIndex x y z * 2 < ta.length := by omega
    have hidx1 : cellIndex x y z * 2 + 1 < ta.length := by omega
    rw [List.getElem?_eq_getElem hidx0, List.getElem?_eq_getElem hidx1]
    dsimp only
    cases hd : dictGet pal (ta[cellIndex x y z * 2] * 256 + ta[cellIndex x y z * 2 + 1]) with
    | none => simp
    | some nm => exact hlevel nm
  rw [if_neg h3]
  simp


lemma fsfStep_none_eq (doc : ChunkDoc) (x z y : Nat) :
    fsfStep doc x z y none = FsfRes.cont (fluidProbe doc x z y) := by
  unfold fsfStep fluidProbe
  cases hsec : doc[y / 32]? with
  | none => rfl
  | some sec =>
    try dsimp only
    cases hfl : sec.fluid with
    | none => rfl
    | some fd =>
      try dsimp only
      by_cases hlen : fd.length < 3
      · rw [if_pos hlen, if_pos hlen]
      rw [if_neg hlen, if_neg hlen]
      cases hta : (parse_fluid_section fd).typeArr with
      | none => rfl
      | some ta =>
        try dsimp only
        cases hla : (parse_fluid_section fd).levelArr with
        | none => rfl
        | some la =>
          try dsimp only
          obtain ⟨hsz1, hsz2⟩ := fluid_arrays_sizes fd ta la hta hla
          cases hgf : get_fluid_at (parse_fluid_section fd).pal ta la
              (parse_fluid_section fd).ptype x (y % 32) z with
          | none => exact absurd hgf (get_fluid_at_ne_none _ _ _ _ _ _ _ hsz1 hsz2)
          | some pr =>
            obtain ⟨cur, lvl⟩ := pr
            try dsimp only
            cases cur with
            | none => rfl
            | some t =>
              try dsimp only
              by_cases hl : lvl > 0
              · rw [if_pos hl, if_pos hl]
              · rw [if_neg hl, if_neg hl]

lemma fsfStep_some (doc : ChunkDoc) (x z y : Nat) (f : List Byte × Nat) :
    fsfStep doc x z y (some f) = FsfRes.cont (some f) ∨
      fsfStep doc x z y (some f) = FsfRes.brk := by
  unfold fsfStep
  cases hsec : doc[y / 32]? with
  | none => exact Or.inl rfl
  | some sec =>
    try dsimp only
    cases hfl : sec.fluid with
    | none => exact Or.inl rfl
    | some fd =>
      try dsimp only
      by_cases hlen : fd.length < 3
      · rw [if_pos hlen]
        exact Or.inl rfl
      rw [if_neg hlen]
      cases hta : (parse_fluid_section fd).typeArr with
      | none => exact Or.inl rfl
      | some ta =>
        try dsimp only
        cases hla : (parse_fluid_section fd).levelArr with
        | none => exact Or.inl rfl
        | some la =>
          try dsimp only
          obtain ⟨hsz1, hsz2⟩ := fluid_arrays_sizes fd ta la hta hla
          cases hgf : get_fluid_at (parse_fluid_section fd).pal ta la
              (parse_fluid_section fd).ptype x (y % 32) z with
          | none => exact absurd hgf (get_fluid_at_ne_none _ _ _ _ _ _ _ hsz1 hsz2)
          | some pr =>
            obtain ⟨cur, lvl⟩ := pr
            try dsimp only
            cases cur with
            | none => exact Or.inr rfl
            | some t =>
              try dsimp only
              by_cases hl : lvl > 0
              · rw [if_pos hl]
                obtain ⟨t0, y0⟩ := f
                by_cases ht : t = t0
                · rw [if_pos ht]
                  exact Or.inl rfl
                · rw [if_neg ht]
                  exact Or.inr rfl
              · rw [if_neg hl]
                exact Or.inr rfl

lemma fsfLoop_found (doc : ChunkDoc) (x z sy : Nat) :
    ∀ (ys : List Nat) (f : List Byte × Nat),
      fsfLoop doc x z sy ys (some f) = some (fsfFinish sy (some f)) := by
  intro ys
  induction ys with
  | nil =>
    intro f
    rfl
  | cons y ys ih =>
    intro f
    rcases fsfStep_some doc x z y f with h | h
    · simp only [fsfLoop, h]
      exact ih f
    · simp only [fsfLoop, h]

lemma fsfLoop_none (doc : ChunkDoc) (x z sy : Nat) :
    ∀ ys : List Nat,
      fsfLoop doc x z sy ys none =
        some (match ys.findSome? (fluidProbe doc x z) with
          | some (t, y) => (some t, y - sy)
          | none => (none, 0)) := by
  intro ys
  induction ys with
  | nil => rfl
  | cons y ys ih =>
    rw [List.findSome?_cons]
    cases hp : fluidProbe doc x z y with
    | none =>
      simp only [fsfLoop, fsfStep_none_eq, hp]
      exact ih
    | some pr =>
      obtain ⟨t, y0⟩ := pr
      simp only [fsfLoop, fsfStep_none_eq, hp]
      exact fsfLoop_found doc x z sy ys (t, y0)

/-- C4.  `find_surface_fluid` agrees with the spec description: it
scans world Y from 319 down to `surfaceY + 1` (never at or below
`surfaceY`), returns `(type, topmostFluidY - surfaceY)` for the first
(topmost) cell holding a non-empty fluid of positive level, and
`(none, 0)` when no such cell is encountered. -/
theorem c4_surface_fluid (doc : ChunkDoc) (x z sy : Nat) :
    find_surface_fluid doc x z sy = some (surfaceFluidSpec doc x z sy) ∧
    (∀ y ∈ ysDesc sy, sy < y ∧ y ≤ 319) ∧
    ((ysDesc sy).findSome? (fluidProbe doc x z) = none →
      find_surface_fluid doc x z sy = some (none, 0)) ∧
    (∀ t y0, (ysDesc sy).findSome? (fluidProbe doc x z) = some (t, y0) →
      find_surface_fluid doc x z sy = some (some t, y0 - sy)) := by
  have hmain : find_surface_fluid doc x z sy = some (surfaceFluidSpec doc x z sy) := by
    unfold find_surface_fluid surfaceFluidSpec
    exact fsfLoop_none doc x z sy (ysDesc sy)
  refine ⟨hmain, ?_, ?_, ?_⟩
  · intro y hy
    unfold ysDesc at hy
    obtain ⟨k, hk, rfl⟩ := List.mem_map.mp hy
    have := List.mem_range.mp hk
    omega
  · intro hnone
    rw [hmain]
    unfold surfaceFluidSpec
    rw [hnone]
  · intro t y0 hsome
    rw [hmain]
    unfold surfaceFluidSpec
    rw [hsome]

/-- Witness for C4: on the empty ten-section document with
`surfaceY = 317`, the scan list is `[319, 318]`, every probe fails, and
the result is `(none, 0)`. -/
theorem c4_surface_fluid_witness :
    find_surface_fluid emptyDoc 0 0 317 = some (none, 0) ∧
    319 ∈ ysDesc 317 ∧ 317 < 319 := by
  refine ⟨(c4_surface_fluid emptyDoc 0 0 317).2.2.1 (by decide), by decide, ?_⟩
  exact ((c4_surface_fluid emptyDoc 0 0 317).2.1 319 (by decide)).1

/-- C8.  `parse_fluid_section` is total (the Lean embedding returns a
plain `FluidSection`, mirroring the source's catch-and-degrade
behavior) and degrades structurally: the type and level arrays are
`none` together — in particular on any input shorter than the 3-byte
header — and whenever they are present they are complete (level array
exactly 16384 bytes, type array exactly the size its encoding
dictates); and the caller `find_surface_fluid` treats a degraded
section as "no fluid data", continuing its scan with an unchanged
state. -/
theorem c8_fluid_section_degrades (data : List Byte) :
    ((parse_fluid_section data).typeArr = none ↔
      (parse_fluid_section data).levelArr = none) ∧
    (∀ ta la, (parse_fluid_section data).typeArr = some ta →
      (parse_fluid_section data).levelArr = some la →
      la.length = 16384 ∧ ta.length = arrSizeOf (parse_fluid_section data).ptype ∧
      ((parse_fluid_section data).ptype = 1 ∨ (parse_fluid_section data).ptype = 2 ∨
        (parse_fluid_section data).ptype = 3)) ∧
    (data.length < 3 → (parse_fluid_section data).typeArr = none ∧
      (parse_fluid_section data).levelArr = none) ∧
    (∀ (doc : ChunkDoc) (x z y : Nat) (st : Option (List Byte × Nat))
      (sec : SectionD),
      doc[y / 32]? = some sec → sec.fluid = some data →
      (parse_fluid_section data).typeArr = none ∨
        (parse_fluid_section data).levelArr = none →
      fsfStep doc x z y st = FsfRes.cont st) := by
  refine ⟨?_, ?_, ?_, ?_⟩
  · rcases parse_fluid_inv data with ⟨h1, h2⟩ | ⟨ta, la, h1, h2, _, _, _⟩
    · rw [h1, h2]
    · rw [h1, h2]
      simp
  · intro ta la hta hla
    rcases parse_fluid_inv data with ⟨h1, _⟩ | ⟨ta1, la1, h1, h2, h3, h4, h5⟩
    · rw [h1] at hta
      exact absurd hta (by simp)
    · rw [h1] at hta
      rw [h2] at hla
      obtain rfl : ta1 = ta := by injection hta
      obtain rfl : la1 = la := by injection hla
      exact ⟨h3, h4, h5⟩
  · intro h3
    unfold parse_fluid_section
    rw [if_pos h3]
    exact ⟨rfl, rfl⟩
  · intro doc x z y st sec hsec hfl hdeg
    unfold fsfStep
    rw [hsec]
    try dsimp only
    rw [hfl]
    try dsimp only
    by_cases hlen : data.length < 3
    · rw [if_pos hlen]
    rw [if_neg hlen]
    rcases hdeg with hd | hd
    · rw [hd]
    · cases hta : (parse_fluid_section data).typeArr with
      | none => rfl
      | some ta =>
        try dsimp only
        rw [hd]

/-- Witness for C8: the empty blob degrades to no arrays, and a section
carrying it is skipped by the fluid scan with an unchanged state. -/
theorem c8_fluid_section_degrades_witness :
    (parse_fluid_section []).typeArr = none ∧
    (parse_fluid_section []).levelArr = none ∧
    fsfStep [⟨none, some []⟩] 0 0 0 none = FsfRes.cont none := by
  obtain ⟨h1, h2⟩ := (c8_fluid_section_degrades []).2.2.1 (by decide)
  refine ⟨h1, h2, ?_⟩
  exact (c8_fluid_section_degrades []).2.2.2 [⟨none, some []⟩] 0 0 0 none
    ⟨none, some []⟩ (by decide) (by decide) (Or.inl h1)

lemma cellState_via_scan (doc : ChunkDoc) (x z s : Nat) (sec : SectionD)
    (bd : List Byte) (bs : BlockSection) (arr : List Byte)
    (hsec : doc[s]? = some sec) (hbd : sec.block = some bd)
    (hbs : parse_block_section bd = some bs) (harr : bs.arr = some arr) (y : Nat) :
    cellState doc x z s y =
      (match scanCell bs.pal arr bs.ptype x z y with
       | .raise => CellR.err
       | .skip => CellR.skip
       | .solid nm => CellR.hit nm) := by
  unfold cellState scanCell
  rw [hsec]
  dsimp only
  rw [hbd]
  dsimp only
  rw [hbs]
  dsimp only
  rw [harr]
  dsimp only
  cases hgb : get_block_at bs.pal (some arr) bs.ptype x y z with
  | none => rfl
  | some nm =>
    dsimp only
    by_cases hnm : nm = emptyName ∨ nm.headD 0 = 42
    · rw [if_pos hnm, if_pos hnm]
    · rw [if_neg hnm, if_neg hnm]

lemma specGo_scan (doc : ChunkDoc) (x z s : Nat) (sec : SectionD)
    (bd : List Byte) (bs : BlockSection) (arr : List Byte)
    (hsec : doc[s]? = some sec) (hbd : sec.block = some bd)
    (hbs : parse_block_section bd = some bs) (harr : bs.arr = some arr) :
    ∀ (ys : List Nat) (rest : List (Nat × Nat)),
      specGo doc x z (ys.map (fun y => (s, y)) ++ rest) =
        (match scanYs bs.pal arr bs.ptype x z ys with
         | none => none
         | some none => specGo doc x z rest
         | some (some (y, nm)) => some (s * 32 + y, nm, s)) := by
  intro ys
  induction ys with
  | nil =>
    intro rest
    rfl
  | cons y ys ih =>
    intro rest
    simp only [List.map_cons, List.cons_append, specGo,
      cellState_via_scan doc x z s sec bd bs arr hsec hbd hbs harr y, scanYs]
    cases hsc : scanCell bs.pal arr bs.ptype x z y with
    | raise => rfl
    | skip => exact ih rest
    | solid nm => rfl

lemma specGo_skipAll (doc : ChunkDoc) (x z s : Nat)
    (hskip : ∀ y, cellState doc x z s y = CellR.skip) :
    ∀ (ys : List Nat) (rest : List (Nat × Nat)),
      specGo doc x z (ys.map (fun y => (s, y)) ++ rest) = specGo doc x z rest := by
  intro ys
  induction ys with
  | nil =>
    intro rest
    rfl
  | cons y ys ih =>
    intro rest
    simp only [List.map_cons, List.cons_append, specGo, hskip y]
    exact ih rest

lemma specGo_errAll (doc : ChunkDoc) (x z s : Nat)
    (herr : ∀ y, cellState doc x z s y = CellR.err) :
    ∀ (ys : List Nat) (rest : List (Nat × Nat)), ys ≠ [] →
      specGo doc x z (ys.map (fun y => (s, y)) ++ rest) = none := by
  intro ys
  cases ys with
  | nil =>
    intro rest h
    exact absurd rfl h
  | cons y ys =>
    intro rest _
    simp only [List.map_cons, List.cons_append, specGo, herr y]

lemma fshLoop_eq_specGo (doc : ChunkDoc) (x z : Nat) :
    ∀ ss : List Nat,
      fshLoop doc x z ss =
        specGo doc x z
          (ss.flatMap (fun s => ((List.range 32).reverse).map (fun y => (s, y)))) := by
  intro ss
  induction ss with
  | nil => rfl
  | cons s ss ih =>
    rw [List.flatMap_cons]
    have hys : ((List.range 32).reverse) ≠ [] := by decide
    cases hsec : doc[s]? with
    | none =>
      have hstep : fshStep doc x z s = FshRes.raise := by
        unfold fshStep
        rw [hsec]
      have herr : ∀ y, cellState doc x z s y = CellR.err := by
        intro y
        unfold cellState
        rw [hsec]
      simp only [fshLoop, hstep]
      rw [specGo_errAll doc x z s herr _ _ hys]
    | some sec =>
      cases hbd : sec.block with
      | none =>
        have hstep : fshStep doc x z s = FshRes.skip := by
          unfold fshStep
          rw [hsec]
          dsimp only
          rw [hbd]
        have hskip : ∀ y, cellState doc x z s y = CellR.skip := by
          intro y
          unfold cellState
          rw [hsec]
          dsimp only
          rw [hbd]
        simp only [fshLoop, hstep]
        rw [specGo_skipAll doc x z s hskip]
        exact ih
      | some bd =>
        cases hbs : parse_block_section bd with
        | none =>
          have hstep : fshStep doc x z s = FshRes.raise := by
            unfold fshStep
            rw [hsec]
            dsimp only
            rw [hbd]
            dsimp only
            rw [hbs]
          have herr : ∀ y, cellState doc x z s y = CellR.err := by
            intro y
            unfold cellState
            rw [hsec]
            dsimp only
            rw [hbd]
            dsimp only
            rw [hbs]
          simp only [fshLoop, hstep]
          rw [specGo_errAll doc x z s herr _ _ hys]
        | some bs =>
          cases harr : bs.arr with
          | none =>
            have hstep : fshStep doc x z s = FshRes.skip := by
              unfold fshStep
              rw [hsec]
              dsimp only
              rw [hbd]
              dsimp only
              rw [hbs]
              dsimp only
              rw [harr]
            have hskip : ∀ y, cellState doc x z s y = CellR.skip := by
              intro y
              unfold cellState
              rw [hsec]
              dsimp only
              rw [hbd]
              dsimp only
              rw [hbs]
              dsimp only
              rw [harr]
            simp only [fshLoop, hstep]
            rw [specGo_skipAll doc x z s hskip]
            exact ih
          | some arr =>
            have hspec := specGo_scan doc x z s sec bd bs arr hsec hbd hbs harr
              ((List.range 32).reverse)
              (ss.flatMap (fun q => ((List.range 32).reverse).map (fun y => (q, y))))
            rw [hspec]
            have hstep : fshStep doc x z s =
                (match scanYs bs.pal arr bs.ptype x z ((List.range 32).reverse) with
                 | none => FshRes.raise
                 | some none => FshRes.skip
                 | some (some (y, nm)) => FshRes.found (s * 32 + y, nm, s)) := by
              unfold fshStep
              rw [hsec]
              dsimp only
              rw [hbd]
              dsimp only
              rw [hbs]
              dsimp only
              rw [harr]
            cases hscan : scanYs bs.pal arr bs.ptype x z ((List.range 32).reverse) with
            | none =>
              rw [hscan] at hstep
              simp only [fshLoop, hstep]
            | some o =>
              cases o with
              | none =>
                rw [hscan] at hstep
                simp only [fshLoop, hstep]
                exact ih
              | some pr =>
                obtain ⟨y, nm⟩ := pr
                rw [hscan] at hstep
                simp only [fshLoop, hstep]

/-- C3.  `find_surface_height` agrees with the spec description: it
returns the first cell, scanning sections 9 down to 0 and local Y 31
down to 0, that belongs to a section with block data and whose name is
neither `Empty` nor `*`-prefixed, as `(sectionIndex*32 + localY, name,
sectionIndex)`; and on a ten-section document with no block data at all
it returns `(0, Empty, 0)` for every column. -/
theorem c3_surface_height (doc : ChunkDoc) (x z : Nat) :
    find_surface_height doc x z = surfaceHeightSpec doc x z ∧
    (doc.length = 10 → (∀ sec ∈ doc, sec.block = none) →
      find_surface_height doc x z = some (0, emptyName, 0)) := by
  constructor
  · unfold find_surface_height surfaceHeightSpec surfacePairs
    exact fshLoop_eq_specGo doc x z ((List.range 10).reverse)
  · intro hlen hall
    have hskip : ∀ s : Nat, s < doc.length → fshStep doc x z s = FshRes.skip := by
      intro s hs
      unfold fshStep
      rw [List.getElem?_eq_getElem hs]
      dsimp only
      rw [hall _ (List.getElem_mem hs)]
    have hloop : ∀ ss : List Nat, (∀ s ∈ ss, s < doc.length) →
        fshLoop doc x z ss = some (0, emptyName, 0) := by
      intro ss
      induction ss with
      | nil =>
        intro _
        rfl
      | cons s ss ih =>
        intro hmem
        simp only [fshLoop, hskip s (hmem s (by simp))]
        exact ih (fun q hq => hmem q (List.mem_cons_of_mem _ hq))
    apply hloop
    intro s hsmem
    rw [hlen]
    exact List.mem_range.mp (List.mem_reverse.mp hsmem)

/-- Witness for C3: the all-empty ten-section document yields
`(0, Empty, 0)`, and the code function agrees with the spec scan
there. -/
theorem c3_surface_height_witness :
    find_surface_height emptyDoc 3 4 = some (0, emptyName, 0) ∧
    find_surface_height emptyDoc 3 4 = surfaceHeightSpec emptyDoc 3 4 := by
  refine ⟨(c3_surface_height emptyDoc 3 4).2 (by decide) ?_, (c3_surface_height emptyDoc 3 4).1⟩
  intro sec hsec
  have : sec = ⟨none, none⟩ := List.eq_of_mem_replicate hsec
  rw [this]

lemma blendChannel_one (t f : Nat) (ht : t ≤ 255) : blendChannel t f 1 = t := by
  unfold blendChannel ratTrunc
  have h1 : ((f : ℚ) + ((t : ℚ) - (f : ℚ)) * 1) = (t : ℚ) := by ring
  rw [h1]
  have h2 : ¬ ((t : ℚ) < 0) := not_lt.mpr (by positivity)
  rw [if_neg h2, Int.floor_natCast]
  omega

/-- C7.  `blend_fluid_color` computes, per channel,
`fluid + (terrain - fluid) * min(1, 1 / max(1, depth))` truncated and
clamped to `[0, 255]`; at depth 1 the multiplier is exactly 1, so every
terrain color is returned unchanged for a recognized fluid; and a
missing/empty/unrecognized fluid type or depth 0 returns the terrain
color unchanged at any depth. -/
theorem c7_blend_fluid (tc : RGB) (ftype : Option (List Byte)) (lvl : Nat) :
    ((ftype = none ∨ ftype = some [] ∨ lvl = 0) →
      blend_fluid_color tc ftype lvl = tc) ∧
    (∀ nm, ftype = some nm → fluidColorOf nm = none →
      blend_fluid_color tc ftype lvl = tc) ∧
    (∀ nm f, ftype = some nm → nm ≠ [] → lvl ≠ 0 → fluidColorOf nm = some f →
      blend_fluid_color tc ftype lvl =
        ((min 255 (max 0 (ratTrunc ((f.1 : ℚ) +
            ((tc.1 : ℚ) - (f.1 : ℚ)) * min 1 (1 / max 1 (lvl : ℚ)))))).toNat,
         (min 255 (max 0 (ratTrunc ((f.2.1 : ℚ) +
            ((tc.2.1 : ℚ) - (f.2.1 : ℚ)) * min 1 (1 / max 1 (lvl : ℚ)))))).toNat,
         (min 255 (max 0 (ratTrunc ((f.2.2 : ℚ) +
            ((tc.2.2 : ℚ) - (f.2.2 : ℚ)) * min 1 (1 / max 1 (lvl : ℚ)))))).toNat)) ∧
    (∀ nm f, ftype = some nm → fluidColorOf nm = some f → lvl = 1 →
      tc.1 ≤ 255 → tc.2.1 ≤ 255 → tc.2.2 ≤ 255 →
      blend_fluid_color tc ftype lvl = tc) := by
  refine ⟨?_, ?_, ?_, ?_⟩
  · intro h
    unfold blend_fluid_color
    rw [if_pos h]
  · intro nm hft hcol
    subst hft
    unfold blend_fluid_color
    by_cases h : (some nm = none ∨ some nm = some ([] : List Byte) ∨ lvl = 0)
    · rw [if_pos h]
    · rw [if_neg h]
      dsimp only [Option.getD]
      rw [hcol]
  · intro nm f hft hnm hl hcol
    subst hft
    unfold blend_fluid_color
    rw [if_neg (by simp [hnm, hl])]
    dsimp only [Option.getD]
    rw [hcol]
    rfl
  · intro nm f hft hcol hl h1 h2 h3
    subst hft
    subst hl
    unfold blend_fluid_color
    by_cases h : (some nm = none ∨ some nm = some ([] : List Byte) ∨ (1 : Nat) = 0)
    · rw [if_pos h]
    · rw [if_neg h]
      dsimp only [Option.getD]
      rw [hcol]
      have hm : min (1 : ℚ) (1 / max 1 ((1 : Nat) : ℚ)) = 1 := by norm_num
      rw [hm]
      obtain ⟨r, g, b⟩ := tc
      simp only [blendChannel_one r f.1 h1, blendChannel_one g f.2.1 h2,
        blendChannel_one b f.2.2 h3]

/-- Witness for C7: water at depth 1 leaves `(10, 20, 30)` unchanged;
an unrecognized fluid (`Slime`) and depth 0 are no-ops; at depth 15 the
general formula applies. -/
theorem c7_blend_fluid_witness :
    blend_fluid_color (10, 20, 30) (some waterName) 1 = (10, 20, 30) ∧
    blend_fluid_color (10, 20, 30) (some [83, 108, 105, 109, 101]) 9 = (10, 20, 30) ∧
    blend_fluid_color (10, 20, 30) (some waterName) 0 = (10, 20, 30) ∧
    blend_fluid_color (40, 131, 217) (some waterName) 15 = (26, 131, 217) := by
  refine ⟨?_, ?_, ?_, ?_⟩
  · exact (c7_blend_fluid (10, 20, 30) (some waterName) 1).2.2.2 waterName
      (25, 131, 217) rfl (by decide) rfl (by decide) (by decide) (by decide)
  · exact (c7_blend_fluid (10, 20, 30) (some [83, 108, 105, 109, 101]) 9).2.1
      [83, 108, 105, 109, 101] rfl (by decide)
  · exact (c7_blend_fluid (10, 20, 30) (some waterName) 0).1 (by simp)
  · have h := (c7_blend_fluid (40, 131, 217) (some waterName) 15).2.2.1 waterName
      (25, 131, 217) rfl (by decide) (by decide) (by decide)
    rw [h]
    dsimp only
    have hm : min (1 : ℚ) (1 / max 1 ((15 : Nat) : ℚ)) = 1 / 15 := by
      rw [show ((15 : Nat) : ℚ) = 15 by norm_num,
        max_eq_right (by norm_num : (1 : ℚ) ≤ 15),
        min_eq_right (by norm_num : (1 : ℚ) / 15 ≤ 1)]
    simp only [hm]
    have t1 : ratTrunc (((25 : Nat) : ℚ) +
        (((40 : Nat) : ℚ) - ((25 : Nat) : ℚ)) * (1 / 15)) = 26 := by
      rw [show ((25 : Nat) : ℚ) + (((40 : Nat) : ℚ) - ((25 : Nat) : ℚ)) * (1 / 15) =
        ((26 : ℤ) : ℚ) from by push_cast; norm_num]
      unfold ratTrunc
      rw [if_neg (by norm_num), Int.floor_intCast]
    have t2 : ratTrunc (((131 : Nat) : ℚ) +
        (((131 : Nat) : ℚ) - ((131 : Nat) : ℚ)) * (1 / 15)) = 131 := by
      rw [show ((131 : Nat) : ℚ) + (((131 : Nat) : ℚ) - ((131 : Nat) : ℚ)) * (1 / 15) =
        ((131 : ℤ) : ℚ) from by push_cast; norm_num]
      unfold ratTrunc
      rw [if_neg (by norm_num), Int.floor_intCast]
    have t3 : ratTrunc (((217 : Nat) : ℚ) +
        (((217 : Nat) : ℚ) - ((217 : Nat) : ℚ)) * (1 / 15)) = 217 := by
      rw [show ((217 : Nat) : ℚ) + (((217 : Nat) : ℚ) - ((217 : Nat) : ℚ)) * (1 / 15) =
        ((217 : ℤ) : ℚ) from by push_cast; norm_num]
      unfold ratTrunc
      rw [if_neg (by norm_num), Int.floor_intCast]
    simp only [t1, t2, t3, Prod.mk.injEq]
    refine ⟨?_, ?_, ?_⟩ <;> omega

/-- C10.  `get_block_color` special-cases the name `Empty`: for every
property table and every biome tint it returns black `(0, 0, 0)`
immediately, bypassing the exact lookup, the prefix scan, the keyword
fallback, the default gray, and all tint / particle processing. -/
theorem c10_empty_black (props : List (List Byte × BlockProps))
    (tint : Option RGBI) :
    get_block_color props emptyName tint = (0, 0, 0) := by
  unfold get_block_color
  rw [if_pos rfl]

/-- C9.  For a perfectly flat neighborhood (all eight neighbors equal
to the center height) `calculate_shading` returns the constant
`0.4 + 0.6 * (0.8 / sqrt 0.93) ≈ 0.898` for every height and every
sub-cell position `(u, v)` — the gradients all vanish, the normal is
vertical, and only the fixed light direction remains. -/
theorem c9_flat_shading (h u v : ℝ) :
    calculate_shading h h h h h h h h h u v =
      0.4 + 0.6 * (0.8 / Real.sqrt 0.93) ∧
    |(0.4 + 0.6 * (0.8 / Real.sqrt 0.93)) - 0.898| < 0.001 := by
  constructor
  · unfold calculate_shading
    simp only [sub_self, zero_mul, mul_zero, zero_add, add_zero]
    rw [show (3 : ℝ) * 3 = 3 ^ 2 from by norm_num,
      Real.sqrt_sq (by norm_num : (0 : ℝ) ≤ 3),
      show (-0.2 : ℝ) * -0.2 + 0.8 * 0.8 + 0.5 * 0.5 = 0.93 from by norm_num,
      max_eq_right (by positivity : (0 : ℝ) ≤ 3 * (1 / 3) * (0.8 * (1 / Real.sqrt 0.93)))]
    ring
  · have hs_pos : 0 < Real.sqrt 0.93 := Real.sqrt_pos.mpr (by norm_num)
    have hub : Real.sqrt 0.93 < 0.965 := by
      rw [Real.sqrt_lt' (by norm_num)]
      norm_num
    have hlb : (0.9643 : ℝ) < Real.sqrt 0.93 := by
      rw [Real.lt_sqrt (by norm_num)]
      norm_num
    have h1 : (0.8 : ℝ) / Real.sqrt 0.93 < 0.8 / 0.9643 :=
      div_lt_div_of_pos_left (by norm_num) (by norm_num) hlb
    have h2 : (0.8 : ℝ) / 0.965 < 0.8 / Real.sqrt 0.93 :=
      div_lt_div_of_pos_left (by norm_num) hs_pos hub
    rw [abs_lt]
    constructor <;> nlinarith [h1, h2]
